import Mathlib

/-!
Shallow embedding of the forwarding job engine of the `lakxy` repository
(`utils.py`, `forwarding.py`, `config.py`) and proofs of the spec claims.

Python machine behaviour is modelled over `Nat`/`Int`/`List Char`:
`int(...)` parsing, `str.split`, `str.replace`, `urllib.parse.urlparse(...).path`
are given executable Lean models; the MongoDB collections become explicit
lists threaded through the functions; the Telegram transport becomes an
oracle of per-attempt outcomes.
-/

namespace Lakxy

/-! ### Models of Python primitives used by `utils.py` -/

/-- Value of a nonempty digit string, most significant first (model of the
digit accumulation performed by Python `int`). -/
def digitsToNat (cs : List Char) : Nat :=
  cs.foldl (fun a c => a * 10 + (c.toNat - 48)) 0

/-- Model of Python `int(s)` on the strings this program feeds it:
an optional single sign followed by a nonempty run of decimal digits.
Returns `none` where Python raises `ValueError`. -/
def parseIntPy (s : String) : Option Int :=
  match s.toList with
  | [] => none
  | c :: rest =>
    if c = '-' then
      if rest ≠ [] ∧ rest.all Char.isDigit then some (-(digitsToNat rest : Int)) else none
    else if c = '+' then
      if rest ≠ [] ∧ rest.all Char.isDigit then some ((digitsToNat rest : Int)) else none
    else if (c :: rest).all Char.isDigit then some ((digitsToNat (c :: rest) : Int)) else none

/-- Does `pat` occur at the head of `s`? -/
def startsWithChars : List Char → List Char → Bool
  | [], _ => true
  | _ :: _, [] => false
  | p :: ps, c :: cs => p = c && startsWithChars ps cs

/-- Does `pat` occur anywhere inside `s`?  Model of Python `pat in s`. -/
def containsChars (pat : List Char) : List Char → Bool
  | [] => startsWithChars pat []
  | c :: cs => startsWithChars pat (c :: cs) || containsChars pat cs

/-- Model of Python `s.split('/')` (single-character separator). -/
def splitChar (sep : Char) : List Char → List (List Char)
  | [] => [[]]
  | c :: rest =>
    let r := splitChar sep rest
    if c = sep then [] :: r
    else
      match r with
      | [] => [[c]]
      | h :: t => (c :: h) :: t

/-- Model of Python `s.strip('/')`. -/
def stripSlash (cs : List Char) : List Char :=
  ((cs.dropWhile (fun c => c = '/')).reverse.dropWhile (fun c => c = '/')).reverse

/-- The characters following the first `://` in a URL, if any. -/
def afterScheme : List Char → Option (List Char)
  | ':' :: '/' :: '/' :: rest => some rest
  | _ :: rest => afterScheme rest
  | [] => none

/-- Model of `urllib.parse.urlparse(link).path`: for `scheme://netloc/path?query`
links the path component starting at the first `/` after the netloc, with
query and fragment stripped; for scheme-less strings the string itself. -/
def urlPath (link : String) : List Char :=
  match afterScheme link.toList with
  | some rest => (rest.dropWhile (fun c => c ≠ '/')).takeWhile (fun c => c ≠ '?' ∧ c ≠ '#')
  | none => link.toList.takeWhile (fun c => c ≠ '?' ∧ c ≠ '#')

/-- The list `parsed.path.strip('/').split('/')` computed by
`extract_message_info_from_link`. -/
def pathParts (link : String) : List String :=
  (splitChar '/' (stripSlash (urlPath link))).map (fun cs => String.mk cs)

/-- Model of the Python guard `"t.me" in link`. -/
def hasTme (link : String) : Bool :=
  containsChars "t.me".toList link.toList

/-- Body of `extract_message_info_from_link` (utils.py lines 23-52) operating
on the already computed `path_parts` list: fewer than two segments fail;
a `c`-kind path needs a third segment and two integer segments; any other
first segment is a username link whose last segment is the message id. -/
def extractFromParts : List String → Option Int × Option Int
  | p0 :: p1 :: rest =>
    if p0 = "c" then
      match rest with
      | p2 :: _ =>
        (match parseIntPy p1, parseIntPy p2 with
         | some chat_id, some message_id =>
           (some (if chat_id > 0 then -1000000000000 - chat_id else chat_id),
            some message_id)
         | _, _ => (none, none))
      | [] => (none, none)
    else
      match parseIntPy (((p1 :: rest).getLast?).getD "") with
      | some message_id => (none, some message_id)
      | none => (none, none)
  | _ => (none, none)

/-- Model of `utils.extract_message_info_from_link`: chat id and message id extracted
from a Telegram message link, `(none, none)` on any failure. -/
def extract_message_info_from_link (link : String) : Option Int × Option Int :=
  if link = "" then (none, none)
  else if hasTme link = false then (none, none)
  else extractFromParts (pathParts link)

/-- Fuel-driven model of Python `s.replace(pat, rep)`: every occurrence of
`pat` replaced left to right, empty pattern matching at every gap.  `fuel`
at least `s.length + 1` makes the fuel bound unreachable. -/
def pyReplaceFuel (pat rep : List Char) : Nat → List Char → List Char
  | 0, s => s
  | fuel + 1, s =>
    match s with
    | [] => if pat = [] then rep else []
    | c :: rest =>
      if pat = [] then rep ++ c :: pyReplaceFuel pat rep fuel rest
      else if startsWithChars pat (c :: rest) then
        rep ++ pyReplaceFuel pat rep fuel ((c :: rest).drop pat.length)
      else c :: pyReplaceFuel pat rep fuel rest

/-- Model of Python `text.replace(old, new)`. -/
def pyReplace (text old new : String) : String :=
  String.mk (pyReplaceFuel old.toList new.toList (text.toList.length + 1) text.toList)

/-- Model of `utils.apply_replacements`: the Python `dict` is modelled as the list of
its key/value pairs in insertion order. -/
def apply_replacements (text : String) (replacements : List (String × String)) : String :=
  if text = "" ∨ replacements = [] then text
  else replacements.foldl (fun t p => pyReplace t p.1 p.2) text

/-! ### `config.py` -/

/-- Value of `config.MAX_SYNC_MESSAGES`. -/
def MAX_SYNC_MESSAGES : Nat := 5000000

/-! ### `forwarding.py` — pin registry -/

/-- A document of the `pinned_messages` Mongo collection. -/
structure PinRecord where
  chat_id : Int
  thread_id : Int
  message_id : Int
  is_pinned : Bool
deriving DecidableEq, Repr

/-- The lookup `col_pinned_messages.find_one` on chat id, thread id and the
pinned flag. -/
def findPinned (store : List PinRecord) (chat thread : Int) : Option PinRecord :=
  store.find? (fun r => r.chat_id = chat && r.thread_id = thread && r.is_pinned)

/-- All pinned records of the store for one `(chat, thread)` key. -/
def pinnedFor (store : List PinRecord) (chat thread : Int) : List PinRecord :=
  store.filter (fun r => r.chat_id = chat && r.thread_id = thread && r.is_pinned)

/-- Model of `ForwardingManager.pin_first_message_in_topic` (forwarding.py lines 77-112).
The Telegram `pin_chat_message` call is abstracted by `pinOk`; an exception
from it is caught, logged and turned into the return value `false`, leaving
the store untouched.  Returns the updated store and the boolean result. -/
def pin_first_message_in_topic (store : List PinRecord) (chat thread msg : Int)
    (pinOk : Bool) : List PinRecord × Bool :=
  match findPinned store chat thread with
  | some _ => (store, true)
  | none =>
    if pinOk then
      (store ++ [{ chat_id := chat, thread_id := thread, message_id := msg, is_pinned := true }],
       true)
    else (store, false)

/-! ### `forwarding.py` — `forward_message` retry loop -/

/-- Outcome of one dispatch attempt of the Telegram transport, as seen by the
`try/except` ladder of `forward_message` (forwarding.py lines 122-293).
`ok` carries whether the subsequent pin attempt (if any) succeeds. -/
inductive SendOutcome where
  | ok (pinOk : Bool)
  | retryAfter (n : Nat)
  | netError
  | notFound
  | pinRights
  | badOther
  | getFail
  | otherError
deriving DecidableEq, Repr

/-- Result of `forward_message`: the returned boolean, the manager's
`consecutive_errors` counter afterwards, the sleeps performed between
attempts (in seconds), and the number of dispatch attempts made. -/
structure FwdResult where
  success : Bool
  consecutive_errors : Nat
  sleeps : List Nat
  attempts : Nat
deriving DecidableEq, Repr

/-- The `while retry_count < max_retries` loop of `forward_message`.  `fuel`
is `max_retries - retry_count`, `k` the current `retry_count`, `c` the
current `consecutive_errors`.  Branches mirror the source handlers:
success resets the counter to 0 (line 229); `RetryAfter n` increments the
counter then sleeps `n + 5 * counter + 2` (lines 236-240); network errors
increment the counter and sleep `5 + retry_count * 10` (lines 256-258);
message-not-found and failure to fetch the source return `false` with no
retry (lines 144, 267); the pin-rights `BadRequest` returns `true`
(line 277); other errors sleep 5 and retry. -/
def forwardLoop (out : Nat → SendOutcome) : Nat → Nat → Nat → FwdResult
  | 0, _, c => { success := false, consecutive_errors := c, sleeps := [], attempts := 0 }
  | fuel + 1, k, c =>
    match out k with
    | .ok _ => { success := true, consecutive_errors := 0, sleeps := [], attempts := 1 }
    | .getFail => { success := false, consecutive_errors := c, sleeps := [], attempts := 1 }
    | .notFound => { success := false, consecutive_errors := c, sleeps := [], attempts := 1 }
    | .pinRights => { success := true, consecutive_errors := c, sleeps := [], attempts := 1 }
    | .retryAfter n =>
      let r := forwardLoop out fuel (k + 1) (c + 1)
      { success := r.success, consecutive_errors := r.consecutive_errors,
        sleeps := (n + 5 * (c + 1) + 2) :: r.sleeps, attempts := r.attempts + 1 }
    | .netError =>
      let r := forwardLoop out fuel (k + 1) (c + 1)
      { success := r.success, consecutive_errors := r.consecutive_errors,
        sleeps := (5 + k * 10) :: r.sleeps, attempts := r.attempts + 1 }
    | .badOther =>
      let r := forwardLoop out fuel (k + 1) c
      { success := r.success, consecutive_errors := r.consecutive_errors,
        sleeps := 5 :: r.sleeps, attempts := r.attempts + 1 }
    | .otherError =>
      let r := forwardLoop out fuel (k + 1) c
      { success := r.success, consecutive_errors := r.consecutive_errors,
        sleeps := 5 :: r.sleeps, attempts := r.attempts + 1 }

/-- Model of `ForwardingManager.forward_message` with `max_retries = 3`
(forwarding.py line 37), starting from `consecutive_errors = c`; the
transport outcome of attempt number `k` is `out k`. -/
def forward_message (out : Nat → SendOutcome) (c : Nat) : FwdResult :=
  forwardLoop out 3 0 c

/-! ### `forwarding.py` — `process_forward_request` -/

/-- The dictionary returned by `utils.parse_forward_request`; the
`replacements` dict is its key/value pairs in insertion order. -/
structure RequestData where
  start_link : String
  end_link : String
  target_group : String
  replacements : List (String × String)

/-- Result of the `for idx, msg_id in enumerate(range(...))` loop. -/
structure LoopResult where
  successful : Nat
  failed : Nat
  dispatched : List Int
  cancelled : Bool
deriving DecidableEq, Repr

/-- The per-message loop (forwarding.py lines 442-515).  `fwd m` is the
boolean returned by `forward_message` for sequence number `m`; `cancel i`
models the check of the `active_jobs` flag performed after `i` messages
have been processed (`true` means the job was cancelled by then). -/
def processLoop (fwd : Int → Bool) (cancel : Nat → Bool) :
    List Int → Nat → Nat → Nat → LoopResult
  | [], s, f, _ => { successful := s, failed := f, dispatched := [], cancelled := false }
  | m :: rest, s, f, i =>
    if cancel i then { successful := s, failed := f, dispatched := [], cancelled := true }
    else
      let ok := fwd m
      let s2 := if ok then s + 1 else s
      let f2 := if ok then f else f + 1
      let r := processLoop fwd cancel rest s2 f2 (i + 1)
      { successful := r.successful, failed := r.failed,
        dispatched := m :: r.dispatched, cancelled := r.cancelled }

/-- How `process_forward_request` terminated. -/
inductive ProcOutcome where
  | invalidLinks
  | crossChat
  | invalidTarget
  | tooMany
  | finished (cancelled : Bool)
deriving DecidableEq, Repr

/-- Observable effect of one `process_forward_request` call: outcome, final
counters, the sequence numbers handed to `forward_message` in order,
whether a job record was inserted into `col_jobs`, and the status written
to that record by the finalizer (`none` when the early validation returns
skip the update). -/
structure ProcResult where
  outcome : ProcOutcome
  successful : Nat
  failed : Nat
  dispatched : List Int
  jobInserted : Bool
  finalStatus : Option String
deriving DecidableEq, Repr

/-- Python truthiness of an optional integer, as used by
`all([start_chat_id, start_msg_id, end_chat_id, end_msg_id])`:
`None` and `0` are falsy. -/
def truthyInt : Option Int → Bool
  | none => false
  | some v => v ≠ 0

/-- The swap normalization `if start_msg_id > end_msg_id: swap`
(forwarding.py lines 395-396). -/
def normalizeRange (a b : Int) : Int × Int :=
  if a > b then (b, a) else (a, b)

/-- The list `range(start_msg_id, end_msg_id + 1)` for `s ≤ e`. -/
def seqList (s e : Int) : List Int :=
  (List.range ((e - s).toNat + 1)).map (fun (k : Nat) => s + (k : Int))

/-- Model of `ForwardingManager.process_forward_request` (forwarding.py lines
356-586).  The job record is inserted with status `"started"` before link
extraction (line 364); each validation failure replies and returns without
touching the record; the finalizer after the loop unconditionally writes
status `"completed"` (line 530), also when the loop was left by the
cancellation `break`. -/
def process_forward_request (req : RequestData) (fwd : Int → Bool)
    (cancel : Nat → Bool) : ProcResult :=
  let sp := extract_message_info_from_link req.start_link
  let ep := extract_message_info_from_link req.end_link
  if ¬ (truthyInt sp.1 && truthyInt sp.2 && truthyInt ep.1 && truthyInt ep.2) then
    { outcome := .invalidLinks, successful := 0, failed := 0, dispatched := [],
      jobInserted := true, finalStatus := none }
  else if sp.1 ≠ ep.1 then
    { outcome := .crossChat, successful := 0, failed := 0, dispatched := [],
      jobInserted := true, finalStatus := none }
  else
    match parseIntPy req.target_group with
    | none =>
      { outcome := .invalidTarget, successful := 0, failed := 0, dispatched := [],
        jobInserted := true, finalStatus := none }
    | some _target =>
      let se := normalizeRange (sp.2.getD 0) (ep.2.getD 0)
      let total := (se.2 - se.1).toNat + 1
      if total > MAX_SYNC_MESSAGES then
        { outcome := .tooMany, successful := 0, failed := 0, dispatched := [],
          jobInserted := true, finalStatus := none }
      else
        let r := processLoop fwd cancel (seqList se.1 se.2) 0 0 0
        { outcome := .finished r.cancelled, successful := r.successful,
          failed := r.failed, dispatched := r.dispatched,
          jobInserted := true, finalStatus := some "completed" }

/-- Cancellation flag that trips once `k` messages have been processed. -/
def cancelGe (k : Nat) : Nat → Bool := fun i => k ≤ i

/-- A job that is never cancelled. -/
def cancelNever : Nat → Bool := fun _ => false

/-- Oracle under which every `forward_message` call succeeds. -/
def fwdAlways : Int → Bool := fun _ => true

/-! ### Helper lemmas about the processing loop -/

theorem processLoop_counts (fwd : Int → Bool) (cancel : Nat → Bool) (msgs : List Int) :
    ∀ s f i,
      (processLoop fwd cancel msgs s f i).successful + (processLoop fwd cancel msgs s f i).failed
        = s + f + (processLoop fwd cancel msgs s f i).dispatched.length := by
  induction msgs with
  | nil => intro s f i; simp [processLoop]
  | cons m rest ih =>
    intro s f i
    by_cases h : cancel i = true
    · simp [processLoop, h]
    · have hrec := ih (if fwd m then s + 1 else s) (if fwd m then f else f + 1) (i + 1)
      simp only [processLoop, h, if_false, Bool.false_eq_true, List.length_cons]
      cases hfwd : fwd m <;> simp [hfwd] at hrec ⊢ <;> omega

theorem processLoop_take (fwd : Int → Bool) (cancel : Nat → Bool) (msgs : List Int) :
    ∀ s f i, ∃ n, (processLoop fwd cancel msgs s f i).dispatched = msgs.take n := by
  induction msgs with
  | nil => intro s f i; exact ⟨0, by simp [processLoop]⟩
  | cons m rest ih =>
    intro s f i
    by_cases h : cancel i = true
    · exact ⟨0, by simp [processLoop, h]⟩
    · obtain ⟨n, hn⟩ := ih (if fwd m then s + 1 else s) (if fwd m then f else f + 1) (i + 1)
      exact ⟨n + 1, by simp [processLoop, h, hn]⟩

theorem processLoop_nocancel (fwd : Int → Bool) (cancel : Nat → Bool)
    (h : ∀ i, cancel i = false) (msgs : List Int) :
    ∀ s f i, (processLoop fwd cancel msgs s f i).dispatched = msgs ∧
      (processLoop fwd cancel msgs s f i).cancelled = false := by
  induction msgs with
  | nil => intro s f i; simp [processLoop]
  | cons m rest ih =>
    intro s f i
    have hrec := ih (if fwd m then s + 1 else s) (if fwd m then f else f + 1) (i + 1)
    simp [processLoop, h i, hrec.1, hrec.2]

theorem processLoop_cancelGe (fwd : Int → Bool) (k : Nat) (msgs : List Int) :
    ∀ s f i, i ≤ k →
      (processLoop fwd (cancelGe k) msgs s f i).dispatched = msgs.take (k - i) ∧
      (processLoop fwd (cancelGe k) msgs s f i).cancelled = decide (k - i < msgs.length) := by
  induction msgs with
  | nil => intro s f i _; simp [processLoop]
  | cons m rest ih =>
    intro s f i hik
    by_cases h : k ≤ i
    · have hki : k - i = 0 := by omega
      simp [processLoop, cancelGe, h, hki]
    · have hrec := ih (if fwd m then s + 1 else s) (if fwd m then f else f + 1) (i + 1) (by omega)
      have hki : k - i = (k - (i + 1)) + 1 := by omega
      have hcg : cancelGe k i = false := by simp [cancelGe]; omega
      constructor
      · simp [processLoop, hcg, hrec.1, hki]
      · simp only [processLoop, hcg, Bool.false_eq_true, if_false, hrec.2, List.length_cons]
        exact decide_eq_decide.mpr (by omega)

/-! ### Helper lemmas about `seqList` -/

theorem seqList_length (s e : Int) : (seqList s e).length = (e - s).toNat + 1 := by
  rw [seqList, List.length_map, List.length_range]

theorem seqList_pairwise (s e : Int) : (seqList s e).Pairwise (· < ·) := by
  rw [seqList, List.pairwise_map]
  exact (List.pairwise_lt_range _).imp (fun h => by omega)

theorem seqList_mem (s e m : Int) (h : s ≤ e) :
    m ∈ seqList s e ↔ s ≤ m ∧ m ≤ e := by
  simp only [seqList, List.mem_map, List.mem_range]
  constructor
  · rintro ⟨k, hk, rfl⟩; omega
  · intro ⟨h1, h2⟩
    exact ⟨(m - s).toNat, by omega, by omega⟩

theorem seqList_take_lt (s e : Int) (j : Nat) (m : Int)
    (hm : m ∈ (seqList s e).take j) : m < s + j := by
  rw [seqList, ← List.map_take, List.take_range] at hm
  simp only [List.mem_map, List.mem_range] at hm
  obtain ⟨k, hk, rfl⟩ := hm
  have : k < j := lt_of_lt_of_le hk (min_le_left _ _)
  omega

/-- On a request that passes every validation check, `process_forward_request`
runs the loop over the normalized range and finalizes with status
`"completed"`. -/
theorem process_valid_eq (req : RequestData) (fwd : Int → Bool) (cancel : Nat → Bool)
    (chat s e target : Int)
    (hs : extract_message_info_from_link req.start_link = (some chat, some s))
    (he : extract_message_info_from_link req.end_link = (some chat, some e))
    (hchat : chat ≠ 0) (hs0 : s ≠ 0) (he0 : e ≠ 0)
    (ht : parseIntPy req.target_group = some target)
    (hmax : ((normalizeRange s e).2 - (normalizeRange s e).1).toNat + 1 ≤ MAX_SYNC_MESSAGES) :
    process_forward_request req fwd cancel =
      { outcome := .finished (processLoop fwd cancel
            (seqList (normalizeRange s e).1 (normalizeRange s e).2) 0 0 0).cancelled,
        successful := (processLoop fwd cancel
            (seqList (normalizeRange s e).1 (normalizeRange s e).2) 0 0 0).successful,
        failed := (processLoop fwd cancel
            (seqList (normalizeRange s e).1 (normalizeRange s e).2) 0 0 0).failed,
        dispatched := (processLoop fwd cancel
            (seqList (normalizeRange s e).1 (normalizeRange s e).2) 0 0 0).dispatched,
        jobInserted := true, finalStatus := some "completed" } := by
  unfold process_forward_request
  rw [hs, he, ht]
  simp only [truthyInt, hchat, hs0, he0, ne_eq, not_false_eq_true,
    Bool.and_self, not_true_eq_false, if_false, Option.getD_some]
  rw [if_neg (Nat.not_lt.mpr hmax)]
  simp

/-- A request whose start link is an alias-form (username) link. -/
def reqAlias : RequestData :=
  { start_link := "https://t.me/somechannel/5", end_link := "https://t.me/c/100/9",
    target_group := "-123", replacements := [] }

/-- A request whose end link is an alias-form (username) link while the
start link is a well-formed `/c/` permalink. -/
def reqAliasEnd : RequestData :=
  { start_link := "https://t.me/c/100/1", end_link := "https://t.me/somechannel/5",
    target_group := "-123", replacements := [] }

/-- A well-formed request over sequence numbers 1..3 of chat `/c/100`. -/
def reqRange : RequestData :=
  { start_link := "https://t.me/c/100/1", end_link := "https://t.me/c/100/3",
    target_group := "-123", replacements := [] }

/-- C3: for every job, `successful + failed` equals the number of sequence
numbers actually processed — at every intermediate point of the loop (any
accumulator values), each iteration incrementing exactly one of the two
counters, and at termination whether the job ended by range exhaustion or
by cancellation. -/
theorem claim_C3_counters (req : RequestData) (fwd : Int → Bool) (cancel : Nat → Bool)
    (msgs : List Int) (s f i : Nat) :
    (process_forward_request req fwd cancel).successful
        + (process_forward_request req fwd cancel).failed
      = (process_forward_request req fwd cancel).dispatched.length ∧
    (processLoop fwd cancel msgs s f i).successful + (processLoop fwd cancel msgs s f i).failed
      = s + f + (processLoop fwd cancel msgs s f i).dispatched.length := by
  constructor
  · simp only [process_forward_request]
    split
    · simp
    · split
      · simp
      · split
        · simp
        · split
          · simp
          · simpa using processLoop_counts fwd cancel _ 0 0 0
  · exact processLoop_counts fwd cancel msgs s f i

/-- C1 counterexample: a request with an alias-form start link fails link
validation, yet a job record has been inserted into the job store. -/
theorem claim_C1_counterexample :
    (process_forward_request reqAlias fwdAlways cancelNever).outcome
        = ProcOutcome.invalidLinks ∧
    (process_forward_request reqAlias fwdAlways cancelNever).jobInserted = true := by
  decide

/-- C1 amended: every forward request that fails validation is surfaced to
the caller immediately with no message processed and no terminal status
written — but a job record (status `"started"`) has already been inserted
into the job store before validation. -/
theorem claim_C1_validation (req : RequestData) (fwd : Int → Bool) (cancel : Nat → Bool)
    (h : ∀ b, (process_forward_request req fwd cancel).outcome ≠ ProcOutcome.finished b) :
    (process_forward_request req fwd cancel).dispatched = [] ∧
    (process_forward_request req fwd cancel).successful = 0 ∧
    (process_forward_request req fwd cancel).failed = 0 ∧
    (process_forward_request req fwd cancel).finalStatus = none ∧
    (process_forward_request req fwd cancel).jobInserted = true := by
  revert h
  simp only [process_forward_request]
  split
  · intro _; simp
  · split
    · intro _; simp
    · split
      · intro _; simp
      · split
        · intro _; simp
        · intro h; exact absurd rfl (h _)

/-- C1 witness: the amended statement evaluated on the alias-link request. -/
theorem claim_C1_witness :
    (process_forward_request reqAlias fwdAlways cancelNever).dispatched = [] ∧
    (process_forward_request reqAlias fwdAlways cancelNever).successful = 0 ∧
    (process_forward_request reqAlias fwdAlways cancelNever).failed = 0 ∧
    (process_forward_request reqAlias fwdAlways cancelNever).finalStatus = none ∧
    (process_forward_request reqAlias fwdAlways cancelNever).jobInserted = true :=
  claim_C1_validation reqAlias fwdAlways cancelNever (by decide)

/-- C2 counterexample: the 1..3 job cancelled after the first message is
sent ends with persisted status `"completed"`, not `"cancelled"` (the
finalizer after the loop writes `"completed"` unconditionally). -/
theorem claim_C2_counterexample :
    (process_forward_request reqRange fwdAlways (cancelGe 1)).outcome
        = ProcOutcome.finished true ∧
    (process_forward_request reqRange fwdAlways (cancelGe 1)).dispatched = [1] ∧
    (process_forward_request reqRange fwdAlways (cancelGe 1)).finalStatus ≠ some "cancelled" ∧
    (process_forward_request reqRange fwdAlways (cancelGe 1)).finalStatus = some "completed" := by
  decide

/-- C2 amended: a job cancelled after the message with sequence number `k`
(`start ≤ k < end`) has been sent stops the loop, `successful + failed`
equals `k - start + 1`, and no message with sequence number greater than
`k` is dispatched — but the persisted terminal status is `"completed"`,
not `"cancelled"`. -/
theorem claim_C2_cancellation (req : RequestData) (fwd : Int → Bool)
    (chat s e k target : Int)
    (hs : extract_message_info_from_link req.start_link = (some chat, some s))
    (he : extract_message_info_from_link req.end_link = (some chat, some e))
    (hchat : chat ≠ 0) (hs0 : s ≠ 0) (he0 : e ≠ 0)
    (ht : parseIntPy req.target_group = some target)
    (hsk : s ≤ k) (hke : k < e)
    (hmax : (e - s).toNat + 1 ≤ MAX_SYNC_MESSAGES) :
    (process_forward_request req fwd (cancelGe ((k - s).toNat + 1))).outcome
        = ProcOutcome.finished true ∧
    (process_forward_request req fwd (cancelGe ((k - s).toNat + 1))).finalStatus
        = some "completed" ∧
    (process_forward_request req fwd (cancelGe ((k - s).toNat + 1))).successful
        + (process_forward_request req fwd (cancelGe ((k - s).toNat + 1))).failed
      = (k - s).toNat + 1 ∧
    ∀ m ∈ (process_forward_request req fwd (cancelGe ((k - s).toNat + 1))).dispatched,
      m ≤ k := by
  have hnorm : normalizeRange s e = (s, e) := by
    rw [normalizeRange, if_neg (by omega)]
  have hmax2 : ((normalizeRange s e).2 - (normalizeRange s e).1).toNat + 1
      ≤ MAX_SYNC_MESSAGES := by rw [hnorm]; exact hmax
  have heq := process_valid_eq req fwd (cancelGe ((k - s).toNat + 1)) chat s e target
    hs he hchat hs0 he0 ht hmax2
  rw [hnorm] at heq
  have hloop := processLoop_cancelGe fwd ((k - s).toNat + 1) (seqList s e) 0 0 0
    (Nat.zero_le _)
  have hlen : (seqList s e).length = (e - s).toNat + 1 := seqList_length s e
  have hklt : (k - s).toNat + 1 - 0 < (seqList s e).length := by rw [hlen]; omega
  have hcounts := processLoop_counts fwd (cancelGe ((k - s).toNat + 1)) (seqList s e) 0 0 0
  rw [heq]
  refine ⟨?_, rfl, ?_, ?_⟩
  · simp only [hloop.2, hlen]
    congr 1
    exact decide_eq_true (by omega)
  · rw [hcounts, hloop.1, List.length_take, hlen]
    omega
  · intro m hm
    rw [hloop.1] at hm
    have := seqList_take_lt s e ((k - s).toNat + 1 - 0) m hm
    omega

/-- C2 witness: the amended statement evaluated on the 1..3 job cancelled
after the first message. -/
theorem claim_C2_witness :
    (process_forward_request reqRange fwdAlways (cancelGe 1)).outcome
        = ProcOutcome.finished true ∧
    (process_forward_request reqRange fwdAlways (cancelGe 1)).finalStatus
        = some "completed" ∧
    (process_forward_request reqRange fwdAlways (cancelGe 1)).successful
        + (process_forward_request reqRange fwdAlways (cancelGe 1)).failed = 1 ∧
    ∀ m ∈ (process_forward_request reqRange fwdAlways (cancelGe 1)).dispatched, m ≤ 1 := by
  have h := claim_C2_cancellation reqRange fwdAlways (-1000000000100) 1 3 1 (-123)
    (by decide) (by decide) (by decide) (by decide) (by decide) (by decide)
    (by decide) (by decide) (by decide)
  simpa using h

/-- C9: for every valid request the normalized range satisfies
`end ≥ start`; the dispatched sequence numbers are strictly increasing
(no reordering, no duplicates, no skipping ahead), and on a run without
cancellation every sequence number of `[start, end]` is visited. -/
theorem claim_C9_ordering (req : RequestData) (fwd : Int → Bool) (cancel : Nat → Bool)
    (chat s e target : Int)
    (hs : extract_message_info_from_link req.start_link = (some chat, some s))
    (he : extract_message_info_from_link req.end_link = (some chat, some e))
    (hchat : chat ≠ 0) (hs0 : s ≠ 0) (he0 : e ≠ 0)
    (ht : parseIntPy req.target_group = some target)
    (hmax : ((normalizeRange s e).2 - (normalizeRange s e).1).toNat + 1
        ≤ MAX_SYNC_MESSAGES) :
    (normalizeRange s e).1 ≤ (normalizeRange s e).2 ∧
    (process_forward_request req fwd cancel).dispatched.Pairwise (· < ·) ∧
    ((∀ i, cancel i = false) →
      ∀ m : Int, m ∈ (process_forward_request req fwd cancel).dispatched ↔
        (normalizeRange s e).1 ≤ m ∧ m ≤ (normalizeRange s e).2) := by
  have hle : (normalizeRange s e).1 ≤ (normalizeRange s e).2 := by
    rw [normalizeRange]; split <;> simp <;> omega
  have heq := process_valid_eq req fwd cancel chat s e target hs he hchat hs0 he0 ht hmax
  refine ⟨hle, ?_, ?_⟩
  · rw [heq]
    obtain ⟨n, hn⟩ := processLoop_take fwd cancel
      (seqList (normalizeRange s e).1 (normalizeRange s e).2) 0 0 0
    simp only [hn]
    exact List.Pairwise.sublist (List.take_sublist _ _) (seqList_pairwise _ _)
  · intro hnc m
    rw [heq]
    have hfull := processLoop_nocancel fwd cancel hnc
      (seqList (normalizeRange s e).1 (normalizeRange s e).2) 0 0 0
    simp only [hfull.1]
    exact seqList_mem _ _ m hle

/-- C9 witness: the statement evaluated on the 1..3 job with no
cancellation. -/
theorem claim_C9_witness :
    (normalizeRange 1 3).1 ≤ (normalizeRange 1 3).2 ∧
    (process_forward_request reqRange fwdAlways cancelNever).dispatched.Pairwise (· < ·) ∧
    ((2 : Int) ∈ (process_forward_request reqRange fwdAlways cancelNever).dispatched ↔
      (normalizeRange 1 3).1 ≤ 2 ∧ (2 : Int) ≤ (normalizeRange 1 3).2) := by
  have h := claim_C9_ordering reqRange fwdAlways cancelNever (-1000000000100) 1 3 (-123)
    (by decide) (by decide) (by decide) (by decide) (by decide) (by decide) (by decide)
  exact ⟨h.1, h.2.1, h.2.2 (fun _ => rfl) 2⟩

/-- C10: an alias-form (username) link makes the link parser return the
chat id as `none`; any request whose start or end link parses with chat id
`none` — and likewise one whose start or end sequence number parses as
`0`, since the Python `all([...])` check treats `0` as missing — is
rejected as invalid links with no message forwarded and no terminal
status written. -/
theorem claim_C10_alias (req : RequestData) (fwd : Int → Bool) (cancel : Nat → Bool)
    (link : String) :
    ((pathParts link).head? ≠ some "c" → (extract_message_info_from_link link).1 = none) ∧
    ((extract_message_info_from_link req.start_link).1 = none ∨
        (extract_message_info_from_link req.start_link).2 = some 0 ∨
        (extract_message_info_from_link req.end_link).1 = none ∨
        (extract_message_info_from_link req.end_link).2 = some 0 →
      (process_forward_request req fwd cancel).outcome = ProcOutcome.invalidLinks ∧
      (process_forward_request req fwd cancel).dispatched = [] ∧
      (process_forward_request req fwd cancel).finalStatus = none) := by
  constructor
  · intro h
    by_cases h0 : link = ""
    · simp [extract_message_info_from_link, h0]
    · by_cases h1 : hasTme link = false
      · simp [extract_message_info_from_link, h0, h1]
      · rw [extract_message_info_from_link, if_neg h0, if_neg h1]
        rcases hpp : pathParts link with _ | ⟨p0, _ | ⟨p1, rest⟩⟩
        · simp [extractFromParts]
        · simp [extractFromParts]
        · have hp0 : p0 ≠ "c" := by rw [hpp] at h; simpa using h
          simp only [extractFromParts, if_neg hp0]
          cases hp : parseIntPy (((p1 :: rest).getLast?).getD "") <;> simp [hp]
  · intro h
    have hfalse :
        truthyInt (extract_message_info_from_link req.start_link).1 = false ∨
        truthyInt (extract_message_info_from_link req.start_link).2 = false ∨
        truthyInt (extract_message_info_from_link req.end_link).1 = false ∨
        truthyInt (extract_message_info_from_link req.end_link).2 = false := by
      rcases h with h | h | h | h
      · exact Or.inl (by rw [h]; rfl)
      · exact Or.inr (Or.inl (by rw [h]; simp [truthyInt]))
      · exact Or.inr (Or.inr (Or.inl (by rw [h]; rfl)))
      · exact Or.inr (Or.inr (Or.inr (by rw [h]; simp [truthyInt])))
    rcases hfalse with hf | hf | hf | hf <;> simp [process_forward_request, hf]

/-- C10 witness: the statement evaluated on a request with an alias-form
start link and on a request with an alias-form end link. -/
theorem claim_C10_witness :
    (extract_message_info_from_link "https://t.me/somechannel/5").1 = none ∧
    (process_forward_request reqAlias fwdAlways cancelNever).outcome
        = ProcOutcome.invalidLinks ∧
    (process_forward_request reqAlias fwdAlways cancelNever).dispatched = [] ∧
    (process_forward_request reqAlias fwdAlways cancelNever).finalStatus = none ∧
    (process_forward_request reqAliasEnd fwdAlways cancelNever).outcome
        = ProcOutcome.invalidLinks ∧
    (process_forward_request reqAliasEnd fwdAlways cancelNever).dispatched = [] ∧
    (process_forward_request reqAliasEnd fwdAlways cancelNever).finalStatus = none := by
  have h := claim_C10_alias reqAlias fwdAlways cancelNever "https://t.me/somechannel/5"
  have h1 := h.1 (by decide)
  have h2 := h.2 (Or.inl (by decide))
  have h3 := (claim_C10_alias reqAliasEnd fwdAlways cancelNever "").2
    (Or.inr (Or.inr (Or.inl (by decide))))
  exact ⟨h1, h2.1, h2.2.1, h2.2.2, h3.1, h3.2.1, h3.2.2⟩

/-- The link resolver delegates to `extractFromParts` once the link is
nonempty and mentions `t.me`. -/
theorem extract_eq_parts (link : String) (h0 : link ≠ "") (h1 : hasTme link = true) :
    extract_message_info_from_link link = extractFromParts (pathParts link) := by
  rw [extract_message_info_from_link, if_neg h0, if_neg (by simp [h1])]

theorem hasTme_ne_empty (link : String) (h : hasTme link = true) : link ≠ "" := by
  rintro rfl
  exact absurd h (by decide)

/-- C7: a numeric-id permalink of chat kind `c` with positive internal id
`n` and sequence `s` resolves to `(-1000000000000 - n, s)`; a path with
fewer than two segments resolves to `(none, none)`, never a partial
tuple; non-integer numeric segments also resolve to `(none, none)`. -/
theorem claim_C7_link_resolver (link : String) (a b : String) (tl : List String)
    (n s : Int) :
    (hasTme link = true → pathParts link = "c" :: a :: b :: tl →
      parseIntPy a = some n → 0 < n → parseIntPy b = some s →
      extract_message_info_from_link link = (some (-1000000000000 - n), some s)) ∧
    ((pathParts link).length < 2 → extract_message_info_from_link link = (none, none)) ∧
    (hasTme link = true → pathParts link = "c" :: a :: b :: tl →
      parseIntPy a = none ∨ parseIntPy b = none →
      extract_message_info_from_link link = (none, none)) := by
  refine ⟨?_, ?_, ?_⟩
  · intro h1 hpp ha hn hb
    rw [extract_eq_parts link (hasTme_ne_empty link h1) h1, hpp]
    simp [extractFromParts, ha, hb, hn]
  · intro hlen
    by_cases h0 : link = ""
    · simp [extract_message_info_from_link, h0]
    · by_cases h1 : hasTme link = false
      · simp [extract_message_info_from_link, h0, h1]
      · rw [extract_message_info_from_link, if_neg h0, if_neg h1]
        rcases hpp : pathParts link with _ | ⟨p0, _ | ⟨p1, rest⟩⟩
        · simp [extractFromParts]
        · simp [extractFromParts]
        · rw [hpp] at hlen; simp at hlen; omega
  · intro h1 hpp hab
    rw [extract_eq_parts link (hasTme_ne_empty link h1) h1, hpp]
    rcases hab with ha | hb
    · cases hb : parseIntPy b <;> simp [extractFromParts, ha, hb]
    · cases ha : parseIntPy a <;> simp [extractFromParts, ha, hb]

/-- C7 witness: concrete links evaluated through the resolver. -/
theorem claim_C7_witness :
    extract_message_info_from_link "https://t.me/c/123/45"
        = (some (-1000000000123), some 45) ∧
    extract_message_info_from_link "https://t.me"
        = (none, none) ∧
    extract_message_info_from_link "https://t.me/c/12x/45" = (none, none) := by
  have h1 := (claim_C7_link_resolver "https://t.me/c/123/45" "123" "45" [] 123 45).1
    (by decide) (by decide) (by decide) (by decide) (by decide)
  have h2 := (claim_C7_link_resolver "https://t.me" "" "" [] 0 0).2.1 (by decide)
  have h3 := (claim_C7_link_resolver "https://t.me/c/12x/45" "12x" "45" [] 0 0).2.2
    (by decide) (by decide) (Or.inl (by decide))
  refine ⟨?_, h2, h3⟩
  rw [h1]
  norm_num

/-- C8: replacement application substitutes every occurrence of each find
string literally, in pair insertion order, with later pairs seeing the
text already rewritten by earlier pairs; on the ordered pairs
`[("a","b"), ("b","c")]` the text `"a"` becomes `"c"`, not `"b"`. -/
theorem claim_C8_replacements (text : String) (p : String × String)
    (ps : List (String × String)) :
    (text ≠ "" →
      apply_replacements text (p :: ps)
        = ps.foldl (fun t q => pyReplace t q.1 q.2) (pyReplace text p.1 p.2)) ∧
    apply_replacements "a" [("a", "b"), ("b", "c")] = "c" ∧
    apply_replacements "a" [("a", "b"), ("b", "c")] ≠ "b" ∧
    apply_replacements "aa x aa" [("aa", "b")] = "b x b" := by
  refine ⟨?_, by decide, by decide, by decide⟩
  intro htext
  rw [apply_replacements, if_neg (by simp [htext])]
  rw [List.foldl_cons]

/-- C8 witness: the chaining equation evaluated on the spec's example. -/
theorem claim_C8_witness :
    apply_replacements "a" [("a", "b"), ("b", "c")]
      = [(("b" : String), ("c" : String))].foldl (fun t q => pyReplace t q.1 q.2)
          (pyReplace "a" "a" "b") :=
  (claim_C8_replacements "a" ("a", "b") [("b", "c")]).1 (by decide)

/-- The decay applied to `consecutive_errors` after every 10th success in
the job loop (forwarding.py lines 459-460): `max(0, counter - 2)`. -/
def successDecay (c : Nat) : Nat := max 0 (c - 2)

/-- Transport oracle whose every attempt succeeds. -/
def outOk : Nat → SendOutcome := fun _ => SendOutcome.ok true

/-- Transport oracle: rate-limited with `retry_after = 7` on the first
attempt, success afterwards. -/
def outRetryOnce : Nat → SendOutcome :=
  fun k => if k = 0 then SendOutcome.retryAfter 7 else SendOutcome.ok true

/-- Transport oracle: the source message never exists. -/
def outNotFound : Nat → SendOutcome := fun _ => SendOutcome.notFound

/-- Transport oracle: rate-limited once, then the message is gone. -/
def outRetryThenGone : Nat → SendOutcome :=
  fun k => if k = 0 then SendOutcome.retryAfter 4 else SendOutcome.notFound

theorem forwardLoop_attempts_le (out : Nat → SendOutcome) :
    ∀ fuel k c, (forwardLoop out fuel k c).attempts ≤ fuel := by
  intro fuel
  induction fuel with
  | zero => intro k c; simp [forwardLoop]
  | succ m ih =>
    intro k c
    cases h : out k <;> simp only [forwardLoop, h] <;>
      first
        | exact Nat.succ_le_succ (Nat.zero_le m)
        | exact Nat.succ_le_succ (ih _ _)

theorem forwardLoop_attempts_pos (out : Nat → SendOutcome) :
    ∀ fuel k c, 1 ≤ (forwardLoop out (fuel + 1) k c).attempts := by
  intro fuel k c
  cases h : out k <;> simp only [forwardLoop, h] <;> omega

/-- C4 counterexample: from controller state `consecutive_errors = 2`, a
single successful send leaves the counter at `0`, not strictly positive
— `forward_message` resets it to zero on every success. -/
theorem claim_C4_counterexample :
    ¬ 0 < (forward_message outOk 2).consecutive_errors := by decide

/-- C4 amended: every successful send resets the consecutive-error counter
to zero (so the job loop's decay of 2 per 10 successes then keeps it at
zero), while rate-limit and network failures increment it by one. -/
theorem claim_C4_error_counter (out : Nat → SendOutcome) (c n : Nat) (p : Bool) :
    (out 0 = SendOutcome.ok p → (forward_message out c).consecutive_errors = 0) ∧
    (out 0 = SendOutcome.retryAfter n → out 1 = SendOutcome.notFound →
      (forward_message out c).consecutive_errors = c + 1) ∧
    (out 0 = SendOutcome.netError → out 1 = SendOutcome.notFound →
      (forward_message out c).consecutive_errors = c + 1) ∧
    successDecay 0 = 0 := by
  refine ⟨?_, ?_, ?_, rfl⟩
  · intro h0
    rw [forward_message, show (3 : Nat) = 2 + 1 from rfl]
    simp [forwardLoop, h0]
  · intro h0 h1
    rw [forward_message, show (3 : Nat) = 2 + 1 from rfl]
    simp only [forwardLoop, h0]
    rw [show (2 : Nat) = 1 + 1 from rfl]
    simp [forwardLoop, h1]
  · intro h0 h1
    rw [forward_message, show (3 : Nat) = 2 + 1 from rfl]
    simp only [forwardLoop, h0]
    rw [show (2 : Nat) = 1 + 1 from rfl]
    simp [forwardLoop, h1]

/-- C4 witness: the amended statement evaluated on concrete oracles. -/
theorem claim_C4_witness :
    (forward_message outOk 7).consecutive_errors = 0 ∧
    (forward_message outRetryThenGone 2).consecutive_errors = 3 := by
  have h1 := (claim_C4_error_counter outOk 7 0 true).1 rfl
  have h2 := (claim_C4_error_counter outRetryThenGone 2 4 true).2.1 (by decide) (by decide)
  exact ⟨h1, h2⟩

/-- C5: a rate-limit signal carrying `n` makes the engine sleep
`n + 5 * consecutive_errors + 2` seconds (counter already incremented by
the failure) before retrying the same message; dispatch attempts are
bounded by the configured maximum of 3; a missing source message returns
failure immediately, with no retry and no sleep. -/
theorem claim_C5_rate_limit (out : Nat → SendOutcome) (c n : Nat) :
    (out 0 = SendOutcome.retryAfter n →
      (forward_message out c).sleeps.head? = some (n + 5 * (c + 1) + 2) ∧
      2 ≤ (forward_message out c).attempts) ∧
    (forward_message out c).attempts ≤ 3 ∧
    (out 0 = SendOutcome.notFound →
      forward_message out c
        = { success := false, consecutive_errors := c, sleeps := [], attempts := 1 }) := by
  refine ⟨?_, forwardLoop_attempts_le out 3 0 c, ?_⟩
  · intro h0
    constructor
    · rw [forward_message, show (3 : Nat) = 2 + 1 from rfl]
      simp [forwardLoop, h0]
    · rw [forward_message, show (3 : Nat) = 2 + 1 from rfl]
      simp [forwardLoop, h0]
      cases h1 : out 1 <;> simp [h1]
  · intro h0
    rw [forward_message, show (3 : Nat) = 2 + 1 from rfl]
    simp [forwardLoop, h0]

/-- C5 witness: the statement evaluated on concrete oracles (`retry_after
7` at counter 2 sleeps `7 + 5*3 + 2 = 24`). -/
theorem claim_C5_witness :
    (forward_message outRetryOnce 2).sleeps.head? = some 24 ∧
    2 ≤ (forward_message outRetryOnce 2).attempts ∧
    (forward_message outRetryOnce 2).attempts ≤ 3 ∧
    forward_message outNotFound 5
      = { success := false, consecutive_errors := 5, sleeps := [], attempts := 1 } := by
  have h1 := claim_C5_rate_limit outRetryOnce 2 7
  have h2 := claim_C5_rate_limit outNotFound 5 0
  refine ⟨?_, (h1.1 (by decide)).2, h1.2.1, h2.2.2 rfl⟩
  have := (h1.1 (by decide)).1
  simpa using this

/-- C6: with no existing record for the key, two `ensurePinned` calls with
the same `(chat, thread)` and different candidate ids leave exactly one
PinRecord, referencing the first pinned id; the second call returns
success without attempting a pin; a pin failure leaves the store unchanged
and returns `false` (logged and swallowed), and a successful dispatch
succeeds regardless of the pin outcome. -/
theorem claim_C6_pin_once (store : List PinRecord) (chat thread m1 m2 : Int) (p2 : Bool)
    (hfresh : findPinned store chat thread = none) :
    (pin_first_message_in_topic store chat thread m1 true).2 = true ∧
    pin_first_message_in_topic (pin_first_message_in_topic store chat thread m1 true).1
        chat thread m2 p2
      = ((pin_first_message_in_topic store chat thread m1 true).1, true) ∧
    pinnedFor (pin_first_message_in_topic store chat thread m1 true).1 chat thread
      = [{ chat_id := chat, thread_id := thread, message_id := m1, is_pinned := true }] ∧
    (∀ (st : List PinRecord) (c t m : Int),
      (pin_first_message_in_topic st c t m false).1 = st) ∧
    (∀ (o : Nat → SendOutcome) (cc : Nat) (p : Bool),
      o 0 = SendOutcome.ok p → (forward_message o cc).success = true) := by
  have hstep : pin_first_message_in_topic store chat thread m1 true
      = (store ++ [(⟨chat, thread, m1, true⟩ : PinRecord)], true) := by
    rw [pin_first_message_in_topic, hfresh]
    simp
  have hfound : findPinned (store ++ [(⟨chat, thread, m1, true⟩ : PinRecord)]) chat thread
      = some (⟨chat, thread, m1, true⟩ : PinRecord) := by
    rw [findPinned, List.find?_append]
    rw [findPinned] at hfresh
    rw [hfresh]
    simp
  refine ⟨by rw [hstep], ?_, ?_, ?_, ?_⟩
  · rw [hstep]
    simp only
    rw [pin_first_message_in_topic, hfound]
  · rw [hstep]
    simp only
    rw [pinnedFor, List.filter_append]
    have hnil : List.filter (fun r => r.chat_id = chat && r.thread_id = thread
        && r.is_pinned) store = [] := by
      rw [List.filter_eq_nil_iff]
      intro r hr
      have := List.find?_eq_none.mp hfresh r hr
      simpa using this
    rw [hnil]
    simp
  · intro st c t m
    cases hf : findPinned st c t <;> simp [pin_first_message_in_topic, hf]
  · intro o cc p h
    rw [forward_message, show (3 : Nat) = 2 + 1 from rfl]
    simp [forwardLoop, h]

/-- C6 witness: the statement evaluated on an empty store. -/
theorem claim_C6_witness :
    (pin_first_message_in_topic [] 10 20 77 true).2 = true ∧
    pin_first_message_in_topic (pin_first_message_in_topic [] 10 20 77 true).1 10 20 88 false
      = ((pin_first_message_in_topic [] 10 20 77 true).1, true) ∧
    pinnedFor (pin_first_message_in_topic [] 10 20 77 true).1 10 20
      = [{ chat_id := 10, thread_id := 20, message_id := 77, is_pinned := true }] :=
  ⟨(claim_C6_pin_once [] 10 20 77 88 false rfl).1,
   (claim_C6_pin_once [] 10 20 77 88 false rfl).2.1,
   (claim_C6_pin_once [] 10 20 77 88 false rfl).2.2.1⟩

end Lakxy
